import Mathlib

/-!
Verification development for the `tx_sim_test` benchmark (src/src/main.rs).

The program builds a batch of `TX_SIMS = 16` intentionally-invalid Solana
transactions, simulates them against a public RPC endpoint first through a
rayon thread pool (synchronous client) and then through a set of scoped
tokio tasks (asynchronous client), and prints the two elapsed times in
microseconds with English thousands separators.

We shallowly embed:
  * the transaction construction (`transaction_builder`, together with the
    parts of `solana-sdk` it calls: `Pubkey::new_unique`,
    `Instruction::new_with_bytes`, `Message::new`,
    `Transaction::new_unsigned`);
  * the control flow of `main` as a deterministic event-trace interpreter
    over an environment that supplies the outcome and duration of every
    remote `simulate_transaction` call (the RPC client itself is an
    external collaborator; only its result, `Ok` or a structured error,
    is visible to the program);
  * the structured-concurrency contract of the `tokio_scoped::scope`
    block as a small-step transition system;
  * the `num_format` English-locale integer formatting.

Panics (`Result::expect_err` on an `Ok` value) are embedded as aborting
the run: the trace ends at the panic and nothing later is emitted.
-/

namespace TxSimTest

/-! ## Remote call outcomes

`RpcClient::simulate_transaction` returns `Result<_, ClientError>`.
The program never inspects the error value, so the error categories are
enumerated abstractly, following the spec taxonomy.  `sanitizeFailure` is
the expected `-32602 invalid transaction: Transaction failed to sanitize
accounts offsets correctly` response documented in main.rs lines 36-41. -/

/-- Category of a structured RPC error returned by the remote evaluator. -/
inductive ErrKind where
  | sanitizeFailure
  | timeout
  | rateLimited
  | malformedOther
deriving DecidableEq

/-- Result of one `simulate_transaction` call as seen by the caller:
either the remote evaluator accepted the request (`ok`) or it returned a
structured error of some category. -/
inductive SimOutcome where
  | ok
  | err (kind : ErrKind)
deriving DecidableEq

/-- Embeds `Result::expect_err(msg)`: `none` means the call panicked
(the result was `Ok`), `some k` returns the contained error. -/
def expect_err : SimOutcome → Option ErrKind
  | SimOutcome.ok => none
  | SimOutcome.err k => some k

/-! ## Transaction data model

Embedding of the `solana-sdk` values produced by `transaction_builder`
(main.rs lines 89-99).  Byte arrays are `List Nat` with entries < 256. -/

/-- A 32-byte Solana account identifier. -/
structure Pubkey where
  bytes : List Nat
deriving DecidableEq

/-- Little-endian base-256 digits: `leBytes k n` is the `k` low bytes of
`n`, least significant first (models `u64::to_le_bytes` for `k = 8`). -/
def leBytes : Nat → Nat → List Nat
  | 0, _ => []
  | k + 1, n => n % 256 :: leBytes k (n / 256)

/-- Embeds `Pubkey::new_unique()`: the SDK keeps a process-global `u64`
counter starting at 1 and places its little-endian bytes in the first 8
bytes of an otherwise zero key.  The counter value observed by a call is
the explicit argument here (state passing made explicit). -/
def pubkeyNewUnique (counter : Nat) : Pubkey :=
  ⟨leBytes 8 (counter % 2 ^ 64) ++ List.replicate 24 0⟩

/-- Embeds `solana_sdk::instruction::AccountMeta`. -/
structure AccountMeta where
  pubkey : Pubkey
  is_signer : Bool
  is_writable : Bool
deriving DecidableEq

/-- Embeds `solana_sdk::instruction::Instruction`. -/
structure Instruction where
  program_id : Pubkey
  accounts : List AccountMeta
  data : List Nat
deriving DecidableEq

/-- Embeds `Instruction::new_with_bytes(program_id, data, accounts)`. -/
def Instruction.new_with_bytes (program_id : Pubkey) (data : List Nat)
    (accounts : List AccountMeta) : Instruction :=
  ⟨program_id, accounts, data⟩

/-- Embeds the per-key metadata accumulated by the SDK compiler
(`CompiledKeyMeta`): whether the key was referenced as a signer, as
writable, or as an invoked program id. -/
structure CompiledKeyMeta where
  is_signer : Bool
  is_writable : Bool
  is_invoked : Bool
deriving DecidableEq

/-- `CompiledKeyMeta::default()`. -/
def defaultMeta : CompiledKeyMeta := ⟨false, false, false⟩

/-- Strict byte-lexicographic order on byte strings; models the
`BTreeMap<Pubkey, _>` key order used by `CompiledKeys::compile`. -/
def bytesLt : List Nat → List Nat → Bool
  | _, [] => false
  | [], _ :: _ => true
  | a :: as, b :: bs => a < b || (a == b && bytesLt as bs)

/-- Embeds `key_meta_map.entry(k).or_default()` followed by an update:
insert `k` (sorted, as in a `BTreeMap`) with `f defaultMeta` if absent,
otherwise replace its metadata `m` by `f m`. -/
def upsertMeta : List (Pubkey × CompiledKeyMeta) → Pubkey →
    (CompiledKeyMeta → CompiledKeyMeta) → List (Pubkey × CompiledKeyMeta)
  | [], k, f => [(k, f defaultMeta)]
  | (k0, m0) :: rest, k, f =>
    if k = k0 then (k0, f m0) :: rest
    else if bytesLt k.bytes k0.bytes then (k, f defaultMeta) :: (k0, m0) :: rest
    else (k0, m0) :: upsertMeta rest k f

/-- Embeds `CompiledKeys::compile(instructions, payer)`: every invoked
program id is marked `is_invoked`; every instruction account ORs its
signer/writable flags in; a fee payer, when present, is a writable
signer. -/
def compileKeys (instructions : List Instruction) (payer : Option Pubkey) :
    List (Pubkey × CompiledKeyMeta) :=
  let m := instructions.foldl (fun m ix =>
    let m := upsertMeta m ix.program_id (fun km => { km with is_invoked := true })
    ix.accounts.foldl (fun m am =>
      upsertMeta m am.pubkey (fun km =>
        { km with is_signer := km.is_signer || am.is_signer,
                  is_writable := km.is_writable || am.is_writable })) m) []
  match payer with
  | some p => upsertMeta m p (fun km => { km with is_signer := true, is_writable := true })
  | none => m

/-- Embeds `solana_sdk::message::MessageHeader`. -/
structure MessageHeader where
  num_required_signatures : Nat
  num_readonly_signed_accounts : Nat
  num_readonly_unsigned_accounts : Nat
deriving DecidableEq

/-- Keys of the map entries whose metadata satisfies `p`. -/
def keysWhere (p : CompiledKeyMeta → Bool)
    (m : List (Pubkey × CompiledKeyMeta)) : List Pubkey :=
  (m.filter (fun km => p km.2)).map (fun km => km.1)

/-- Embeds `CompiledKeys::try_into_message_components`: the payer entry is
pulled out and listed first; remaining keys are grouped as writable
signers, readonly signers, writable non-signers, readonly non-signers
(invoked, otherwise-unreferenced program ids fall in the last group).
The SDK errors when a group exceeds 255 keys; the builder below compiles
exactly one key, so that branch is unreachable and not modelled. -/
def messageComponents (payer : Option Pubkey)
    (m : List (Pubkey × CompiledKeyMeta)) : MessageHeader × List Pubkey :=
  let m := match payer with
    | some p => m.filter (fun km => !(km.1 == p))
    | none => m
  let writableSigner := (match payer with | some p => [p] | none => []) ++
    keysWhere (fun km => km.is_signer && km.is_writable) m
  let readonlySigner := keysWhere (fun km => km.is_signer && !km.is_writable) m
  let writableNonSigner := keysWhere (fun km => !km.is_signer && km.is_writable) m
  let readonlyNonSigner := keysWhere (fun km => !km.is_signer && !km.is_writable) m
  (⟨writableSigner.length + readonlySigner.length,
    readonlySigner.length,
    readonlyNonSigner.length⟩,
   writableSigner ++ readonlySigner ++ writableNonSigner ++ readonlyNonSigner)

/-- Embeds `solana_sdk::instruction::CompiledInstruction`. -/
structure CompiledInstruction where
  program_id_index : Nat
  accounts : List Nat
  data : List Nat
deriving DecidableEq

/-- Embeds `solana_sdk::message::Message` (legacy). -/
structure Message where
  header : MessageHeader
  account_keys : List Pubkey
  recent_blockhash : List Nat
  instructions : List CompiledInstruction
deriving DecidableEq

/-- Embeds `Message::new(instructions, payer)`, which compiles the key
list and instructions against `Hash::default()` (32 zero bytes) as the
recent blockhash. -/
def Message.new (ixs : List Instruction) (payer : Option Pubkey) : Message :=
  let c := messageComponents payer (compileKeys ixs payer)
  { header := c.1
    account_keys := c.2
    recent_blockhash := List.replicate 32 0
    instructions := ixs.map (fun ix =>
      { program_id_index := c.2.indexOf ix.program_id
        accounts := ix.accounts.map (fun am => c.2.indexOf am.pubkey)
        data := ix.data }) }

/-- `Signature::default()`: 64 zero bytes. -/
def defaultSignature : List Nat := List.replicate 64 0

/-- Embeds `solana_sdk::transaction::Transaction`. -/
structure Transaction where
  signatures : List (List Nat)
  message : Message
deriving DecidableEq

/-- Embeds `Transaction::new_unsigned(message)`: one default (all-zero)
signature slot per required signer. -/
def Transaction.new_unsigned (m : Message) : Transaction :=
  ⟨List.replicate m.header.num_required_signatures defaultSignature, m⟩

/-- Embeds `transaction_builder` (main.rs lines 89-99); the explicit
argument is the process-global counter value consumed by
`Pubkey::new_unique()` during this invocation. -/
def transaction_builder (counter : Nat) : Transaction :=
  Transaction.new_unsigned (Message.new
    [Instruction.new_with_bytes (pubkeyNewUnique counter) [] []] none)

/-- Embeds the `k`-th invocation (0-based) of `transaction_builder`
within one process run: the SDK counter starts at 1 and is fetch-added
once per `Pubkey::new_unique` call, so that invocation observes `1 + k`. -/
def transactionAtInvocation (k : Nat) : Transaction :=
  transaction_builder (1 + k)

/-! ## Console output formatting

Embedding of `num_format`: `x.to_formatted_string(&Locale::en)` writes
the decimal digits of `x` with a comma between every group of three,
counted from the least significant digit.  The locale is the hard-coded
constant `Locale::en` (main.rs lines 81 and 85); the program reads no
system locale. -/

/-- Inserts a separator before each position whose distance from the
least-significant digit is a positive multiple of 3; the input and
output are digit lists least-significant-first, `k` counts digits left
in the current group. -/
def groupRev : List Char → Nat → List Char
  | [], _ => []
  | c :: rest, k =>
    if k = 0 then ',' :: c :: groupRev rest 2
    else c :: groupRev rest (k - 1)

/-- Embeds `ToFormattedString::to_formatted_string(&Locale::en)` on a
nonnegative integer. -/
def toFormattedStringEn (n : Nat) : String :=
  String.mk ((groupRev ((Nat.toDigits 10 n).reverse) 3).reverse)

/-! ## The `main` pipeline as an event-trace interpreter

`main` (main.rs lines 21-87) is embedded as a deterministic function of
an environment that supplies, for each call index, the outcome of the
remote `simulate_transaction` call, the wall-clock duration of each
synchronous call (the rayon pool is built with exactly one thread, so
the synchronous calls occupy the timer one after another), and the
wall-clock duration of the whole scoped asynchronous batch (its sixteen
round trips overlap on the single-threaded scheduler, so only the
aggregate duration is observable).  The dispatch order of each batch is
an arbitrary permutation `sched` of the call indices, covering every
rayon worker-pool size and every tokio completion interleaving.

The produced value is the ordered list of observable events; a panic
(`expect_err` on an `Ok`) aborts the run, ending the trace. -/

/-- Which strategy runner an event belongs to. -/
inductive Phase where
  | sync
  | async
deriving DecidableEq

/-- Observable events of one run. -/
inductive Event where
  | callDone (p : Phase) (i : Nat)
  | inc (p : Phase) (i : Nat)
  | timerRead (p : Phase) (elapsed : Nat)
  | pbFinish (p : Phase)
  | printLine (s : String)
  | sleepDone
  | panicked (msg : String)
deriving DecidableEq

/-- Environment of one run: everything the external world decides. -/
structure Env where
  syncOutcome : Nat → SimOutcome
  asyncOutcome : Nat → SimOutcome
  syncCallDur : Nat → Nat
  asyncBatchDur : Nat

/-- `TX_SIMS` (main.rs line 16). -/
def TX_SIMS : Nat := 16

/-- `MAINNET_BETA_ENDPOINT` (main.rs line 19); both clients are built
from this one constant. -/
def MAINNET_BETA_ENDPOINT : String := "https://api.mainnet-beta.solana.com"

/-- The `expect_err` panic message (main.rs lines 50 and 69). -/
def EXPECT_MSG : String := "tx sim should fail"

/-- Notice printed before the inter-batch sleep (main.rs line 56). -/
def sleepMsg : String := "Sleeping to wait for mb rpc rate limits"

/-- Header of the report (main.rs line 78). -/
def resultsHeader : String := "Results"

/-- The synchronous timing line (main.rs lines 79-82). -/
def syncLine (n : Nat) : String := "    synchronous sims: " ++ toFormattedStringEn n

/-- The asynchronous timing line (main.rs lines 83-86). -/
def asyncLine (n : Nat) : String := "   asynchronous sims: " ++ toFormattedStringEn n

/-- Runs the calls of one batch in dispatch order `sched`, threading the
virtual clock.  Each call body is lines 48-51 (sync) or 66-70 (async):
`simulate_transaction` followed by `expect_err` followed by `pb.inc(1)`.
Returns the emitted events, the final clock, and whether the batch
panicked; a panic ends the batch (and, lifted by `mainTrace`, the run). -/
def runBatch (p : Phase) (outcome : Nat → SimOutcome) (dur : Nat → Nat) :
    List Nat → Nat → List Event × Nat × Bool
  | [], clock => ([], clock, false)
  | i :: rest, clock =>
    match expect_err (outcome i) with
    | none => ([Event.panicked EXPECT_MSG], clock, true)
    | some _ =>
      let r := runBatch p outcome dur rest (clock + dur i)
      (Event.callDone p i :: Event.inc p i :: r.1, r.2)

/-- The event trace of `main` (main.rs lines 43-87): timed synchronous
batch; elapsed read; progress-bar finish; sleep notice; 20 s sleep;
timed asynchronous batch; elapsed read; progress-bar finish; report. -/
def mainTrace (env : Env) (syncSched asyncSched : List Nat) : List Event :=
  let r1 := runBatch Phase.sync env.syncOutcome env.syncCallDur syncSched 0
  if r1.2.2 then r1.1 else
  let syncTime := r1.2.1 - 0
  let preAsync := r1.1 ++
    [Event.timerRead Phase.sync syncTime, Event.pbFinish Phase.sync,
     Event.printLine sleepMsg, Event.sleepDone]
  let c2 := r1.2.1 + 20000000
  let r2 := runBatch Phase.async env.asyncOutcome (fun _ => 0) asyncSched c2
  if r2.2.2 then preAsync ++ r2.1 else
  let asyncTime := (r2.2.1 + env.asyncBatchDur) - c2
  preAsync ++ r2.1 ++
    [Event.timerRead Phase.async asyncTime, Event.pbFinish Phase.async,
     Event.printLine "", Event.printLine resultsHeader,
     Event.printLine (syncLine syncTime), Event.printLine (asyncLine asyncTime)]

/-- The lines a trace wrote to stdout, in order. -/
def printedLines (tr : List Event) : List String :=
  tr.filterMap (fun e => match e with | Event.printLine s => some s | _ => none)

/-- Whether the run aborted (some call panicked). -/
def aborts (tr : List Event) : Bool :=
  tr.any (fun e => match e with | Event.panicked _ => true | _ => false)

/-- Recognizes a progress increment of phase `p`. -/
def isInc : Phase → Event → Bool
  | p, Event.inc q _ => decide (p = q)
  | _, _ => false

/-- The events a batch emits when nothing panics: completion then
progress increment, per dispatched call. -/
def batchEvents (p : Phase) (sched : List Nat) : List Event :=
  sched.flatMap (fun i => [Event.callDone p i, Event.inc p i])

/-! ## Environment fixtures used by concrete instances -/

/-- Every call returns the expected sanitize failure; durations zero. -/
def envAllExpected : Env :=
  { syncOutcome := fun _ => SimOutcome.err ErrKind.sanitizeFailure
    asyncOutcome := fun _ => SimOutcome.err ErrKind.sanitizeFailure
    syncCallDur := fun _ => 0
    asyncBatchDur := 0 }

/-- Synchronous call 0 fails with a non-expected error category (a
network timeout); every other call returns the expected failure. -/
def envTimeoutAtZero : Env :=
  { syncOutcome := fun i =>
      if i = 0 then SimOutcome.err ErrKind.timeout else SimOutcome.err ErrKind.sanitizeFailure
    asyncOutcome := fun _ => SimOutcome.err ErrKind.sanitizeFailure
    syncCallDur := fun _ => 0
    asyncBatchDur := 0 }

/-- Synchronous call 0 unexpectedly succeeds; every other call returns
the expected failure. -/
def envSuccessAtZero : Env :=
  { syncOutcome := fun i =>
      if i = 0 then SimOutcome.ok else SimOutcome.err ErrKind.sanitizeFailure
    asyncOutcome := fun _ => SimOutcome.err ErrKind.sanitizeFailure
    syncCallDur := fun _ => 0
    asyncBatchDur := 0 }

/-- Both batches measure 1234567 microseconds. -/
def envElapsed1234567 : Env :=
  { syncOutcome := fun _ => SimOutcome.err ErrKind.sanitizeFailure
    asyncOutcome := fun _ => SimOutcome.err ErrKind.sanitizeFailure
    syncCallDur := fun i => if i = 0 then 1234567 else 0
    asyncBatchDur := 1234567 }

/-! ## The scoped asynchronous block as a transition system

Modelled from the spec: the scoped task-group combinator
(`tokio_scoped::scope`, main.rs lines 61-73) is an external crate not
present in this repository.  Its contract, stated in the spec (4.3
"Structural guarantee" and 8), is that the block tracks the completion
of every spawned unit (the crate does so over a channel whose senders
the tasks drop on completion) and returns to the caller only after the
body has spawned all `N` units and every one of them has completed.
The states and steps below make that protocol explicit; `N` is the
batch size (`TX_SIMS` in the program). -/

/-- State of the scoped block: how many units the body has spawned so
far, which have completed, and whether the block has returned. -/
structure ScopeState where
  spawned : Nat
  done : List Nat
  returned : Bool
deriving DecidableEq

/-- Steps of the scoped block: the body spawns the next unit; a spawned,
not-yet-finished unit completes; the block returns once all `N` units
are spawned and completed (the completion channel has drained). -/
inductive ScopeStep (N : Nat) : ScopeState → ScopeState → Prop
  | spawn (s : ScopeState) (h : s.spawned < N) (hr : s.returned = false) :
      ScopeStep N s { s with spawned := s.spawned + 1 }
  | complete (s : ScopeState) (i : Nat) (hi : i < s.spawned) (hmem : i ∉ s.done)
      (hr : s.returned = false) :
      ScopeStep N s { s with done := i :: s.done }
  | exit (s : ScopeState) (hsp : s.spawned = N) (hall : ∀ i < N, i ∈ s.done)
      (hr : s.returned = false) :
      ScopeStep N s { s with returned := true }

/-- The scoped block before anything was spawned. -/
def scopeInit : ScopeState := ⟨0, [], false⟩

/-- States the scoped block can be in at any point of a run. -/
def scopeReachable (N : Nat) (s : ScopeState) : Prop :=
  Relation.ReflTransGen (ScopeStep N) scopeInit s

/-! ## Lemmas about the batch runners and the main trace -/

theorem runBatch_no_abort (p : Phase) (o : Nat → SimOutcome) (d : Nat → Nat)
    (sched : List Nat) (c : Nat) (h : ∀ i ∈ sched, o i ≠ SimOutcome.ok) :
    runBatch p o d sched c = (batchEvents p sched, c + (sched.map d).sum, false) := by
  induction sched generalizing c with
  | nil => simp [runBatch, batchEvents]
  | cons i rest ih =>
    have hi : o i ≠ SimOutcome.ok := h i (List.mem_cons_self i rest)
    match hoi : o i with
    | SimOutcome.ok => exact absurd hoi hi
    | SimOutcome.err k =>
      simp only [runBatch, hoi, expect_err]
      rw [ih (c + d i) (fun j hj => h j (List.mem_cons_of_mem i hj))]
      simp [batchEvents]
      omega

theorem runBatch_abort_of_ok (p : Phase) (o : Nat → SimOutcome) (d : Nat → Nat)
    (sched : List Nat) (c : Nat) (h : ∃ i ∈ sched, o i = SimOutcome.ok) :
    (runBatch p o d sched c).2.2 = true := by
  induction sched generalizing c with
  | nil => simp at h
  | cons i rest ih =>
    match hoi : o i with
    | SimOutcome.ok => simp [runBatch, hoi, expect_err]
    | SimOutcome.err k =>
      simp only [runBatch, hoi, expect_err]
      obtain ⟨j, hj, hjo⟩ := h
      rcases List.mem_cons.mp hj with rfl | hj'
      · rw [hoi] at hjo; exact absurd hjo (by simp)
      · exact ih (c + d i) ⟨j, hj', hjo⟩

theorem runBatch_panicked_of_abort (p : Phase) (o : Nat → SimOutcome) (d : Nat → Nat)
    (sched : List Nat) (c : Nat) (h : (runBatch p o d sched c).2.2 = true) :
    Event.panicked EXPECT_MSG ∈ (runBatch p o d sched c).1 := by
  induction sched generalizing c with
  | nil => simp [runBatch] at h
  | cons i rest ih =>
    match hoi : o i with
    | SimOutcome.ok => simp [runBatch, hoi, expect_err]
    | SimOutcome.err k =>
      simp only [runBatch, hoi, expect_err] at h ⊢
      exact List.mem_cons_of_mem _ (List.mem_cons_of_mem _ (ih (c + d i) h))

theorem printedLines_runBatch (p : Phase) (o : Nat → SimOutcome) (d : Nat → Nat)
    (sched : List Nat) (c : Nat) :
    printedLines (runBatch p o d sched c).1 = [] := by
  induction sched generalizing c with
  | nil => simp [runBatch, printedLines]
  | cons i rest ih =>
    match hoi : o i with
    | SimOutcome.ok => simp [runBatch, hoi, expect_err, printedLines]
    | SimOutcome.err k =>
      simp only [runBatch, hoi, expect_err]
      simpa [printedLines] using ih (c + d i)

theorem batchEvents_cons (p : Phase) (i : Nat) (rest : List Nat) :
    batchEvents p (i :: rest) =
      Event.callDone p i :: Event.inc p i :: batchEvents p rest := by
  simp [batchEvents]

theorem printedLines_batchEvents (p : Phase) (sched : List Nat) :
    printedLines (batchEvents p sched) = [] := by
  induction sched with
  | nil => rfl
  | cons i rest ih =>
    rw [batchEvents_cons]
    simpa [printedLines] using ih

theorem aborts_batchEvents (p : Phase) (sched : List Nat) :
    aborts (batchEvents p sched) = false := by
  induction sched with
  | nil => rfl
  | cons i rest ih =>
    rw [batchEvents_cons]
    simpa [aborts] using ih

theorem mem_batchEvents {p : Phase} {sched : List Nat} {e : Event} :
    e ∈ batchEvents p sched ↔ ∃ i ∈ sched, e = Event.callDone p i ∨ e = Event.inc p i := by
  simp [batchEvents]

theorem countP_isInc_batchEvents_self (p : Phase) (sched : List Nat) :
    (batchEvents p sched).countP (isInc p) = sched.length := by
  induction sched with
  | nil => rfl
  | cons i rest ih =>
    rw [batchEvents_cons]
    simp [List.countP_cons, isInc, ih]

theorem countP_isInc_batchEvents_ne {p q : Phase} (h : p ≠ q) (sched : List Nat) :
    (batchEvents q sched).countP (isInc p) = 0 := by
  induction sched with
  | nil => rfl
  | cons i rest ih =>
    rw [batchEvents_cons]
    simp [List.countP_cons, isInc, h, ih]

theorem count_callDone_batchEvents (p : Phase) (sched : List Nat) (i : Nat) :
    (batchEvents p sched).count (Event.callDone p i) = sched.count i := by
  induction sched with
  | nil => rfl
  | cons j rest ih =>
    rw [batchEvents_cons]
    simp [List.count_cons, ih]

/-- When no call succeeds, the whole run unfolds to its linear shape:
synchronous batch events; synchronous elapsed read (the sum of the
synchronous call durations — no sleep term, no finalization term);
progress-bar finish; sleep notice and 20 s sleep; asynchronous batch
events; asynchronous elapsed read (the wall time of the scoped batch
alone); progress-bar finish; the report. -/
theorem mainTrace_eq_of_no_abort (env : Env) (ss as : List Nat)
    (hs : ∀ i ∈ ss, env.syncOutcome i ≠ SimOutcome.ok)
    (ha : ∀ i ∈ as, env.asyncOutcome i ≠ SimOutcome.ok) :
    mainTrace env ss as =
      batchEvents Phase.sync ss ++
      [Event.timerRead Phase.sync ((ss.map env.syncCallDur).sum), Event.pbFinish Phase.sync,
       Event.printLine sleepMsg, Event.sleepDone] ++
      batchEvents Phase.async as ++
      [Event.timerRead Phase.async env.asyncBatchDur, Event.pbFinish Phase.async,
       Event.printLine "", Event.printLine resultsHeader,
       Event.printLine (syncLine ((ss.map env.syncCallDur).sum)),
       Event.printLine (asyncLine env.asyncBatchDur)] := by
  unfold mainTrace
  rw [runBatch_no_abort _ _ _ _ _ hs]
  simp only [runBatch_no_abort _ _ _ _ _ ha]
  simp

/-! ## Lemmas about the transaction factory -/

theorem leBytes_length (k n : Nat) : (leBytes k n).length = k := by
  induction k generalizing n with
  | zero => rfl
  | succ k ih => simp [leBytes, ih]

theorem leBytes_inj {k a b : Nat} (ha : a < 256 ^ k) (hb : b < 256 ^ k)
    (h : leBytes k a = leBytes k b) : a = b := by
  induction k generalizing a b with
  | zero => simp at ha hb; omega
  | succ k ih =>
    simp only [leBytes, List.cons.injEq] at h
    obtain ⟨h1, h2⟩ := h
    have ha' : a / 256 < 256 ^ k := by
      rw [Nat.div_lt_iff_lt_mul (by norm_num)]
      calc a < 256 ^ (k + 1) := ha
        _ = 256 ^ k * 256 := by ring
    have hb' : b / 256 < 256 ^ k := by
      rw [Nat.div_lt_iff_lt_mul (by norm_num)]
      calc b < 256 ^ (k + 1) := hb
        _ = 256 ^ k * 256 := by ring
    have := ih ha' hb' h2
    omega

/-- Two `Pubkey::new_unique` results disagree whenever the observed
counter values disagree (no wrap-around within `u64` range). -/
theorem pubkeyNewUnique_inj {a b : Nat} (ha : a < 2 ^ 64) (hb : b < 2 ^ 64)
    (h : pubkeyNewUnique a = pubkeyNewUnique b) : a = b := by
  simp only [pubkeyNewUnique, Pubkey.mk.injEq] at h
  have h' : leBytes 8 (a % 2 ^ 64) = leBytes 8 (b % 2 ^ 64) :=
    List.append_cancel_right h
  rw [Nat.mod_eq_of_lt ha, Nat.mod_eq_of_lt hb] at h'
  exact leBytes_inj (by norm_num at ha ⊢; omega) (by norm_num at hb ⊢; omega) h'

/-- The compiled message of every built transaction holds exactly the
fresh program id as its single account key. -/
theorem transaction_builder_account_keys (n : Nat) :
    (transaction_builder n).message.account_keys = [pubkeyNewUnique n] := by
  simp [transaction_builder, Message.new, messageComponents, compileKeys, upsertMeta,
    Instruction.new_with_bytes, Transaction.new_unsigned, keysWhere, defaultMeta]

/-- C3: every transaction produced by the transaction factory is an
unsigned envelope: it has an empty signature list and zero required
signatures (hence no signer and no fee payer, the fee payer being the
first required signer), and it contains exactly one instruction whose
data payload and account list are both empty. -/
theorem c3_transaction_shape (n : Nat) :
    (transaction_builder n).signatures = [] ∧
    (transaction_builder n).message.header.num_required_signatures = 0 ∧
    (transaction_builder n).message.instructions.length = 1 ∧
    ∀ ci ∈ (transaction_builder n).message.instructions,
      ci.data = [] ∧ ci.accounts = [] := by
  refine ⟨?_, ?_, ?_, ?_⟩ <;>
    simp [transaction_builder, Message.new, messageComponents, compileKeys, upsertMeta,
      Instruction.new_with_bytes, Transaction.new_unsigned, keysWhere, defaultMeta]

/-- C4: two distinct invocations of the transaction factory within one
process run (the `k`-th invocation observes the SDK counter value
`1 + k`, which stays within `u64` for any realistic run) build
transactions with distinct instruction target identifiers: their account
key lists, each holding exactly the fresh program id, differ. -/
theorem c4_distinct_invocations_distinct_target (j k : Nat) (hjk : j ≠ k)
    (hj : 1 + j < 2 ^ 64) (hk : 1 + k < 2 ^ 64) :
    (transactionAtInvocation j).message.account_keys ≠
      (transactionAtInvocation k).message.account_keys := by
  intro h
  rw [transactionAtInvocation, transactionAtInvocation,
    transaction_builder_account_keys, transaction_builder_account_keys] at h
  simp only [List.cons.injEq, and_true] at h
  have := pubkeyNewUnique_inj hj hk h
  omega

/-- Witness for C4 at the first two invocations of a run. -/
theorem c4_distinct_invocations_witness :
    (transactionAtInvocation 0).message.account_keys ≠
      (transactionAtInvocation 1).message.account_keys :=
  c4_distinct_invocations_distinct_target 0 1 (by decide) (by norm_num) (by norm_num)


/-! ## Helper lemmas for the abort paths -/

theorem printedLines_append (A B : List Event) :
    printedLines (A ++ B) = printedLines A ++ printedLines B := by
  simp [printedLines]

theorem aborts_of_mem_panicked {tr : List Event} {m : String}
    (h : Event.panicked m ∈ tr) : aborts tr = true := by
  simp only [aborts, List.any_eq_true]
  exact ⟨Event.panicked m, h, rfl⟩

theorem asyncLine_ne_sleepMsg (n : Nat) : asyncLine n ≠ sleepMsg := by
  intro h
  have h2 : (asyncLine n).data.head? = some ' ' := rfl
  rw [h] at h2
  exact absurd h2 (by decide)

theorem mainTrace_eq_of_sync_abort (env : Env) (ss as : List Nat)
    (hs : ∃ i ∈ ss, env.syncOutcome i = SimOutcome.ok) :
    mainTrace env ss as = (runBatch Phase.sync env.syncOutcome env.syncCallDur ss 0).1 := by
  unfold mainTrace
  simp [runBatch_abort_of_ok _ _ _ _ _ hs]

theorem mainTrace_eq_of_async_abort (env : Env) (ss as : List Nat)
    (hs : ∀ i ∈ ss, env.syncOutcome i ≠ SimOutcome.ok)
    (ha : ∃ i ∈ as, env.asyncOutcome i = SimOutcome.ok) :
    mainTrace env ss as =
      batchEvents Phase.sync ss ++
      [Event.timerRead Phase.sync ((ss.map env.syncCallDur).sum), Event.pbFinish Phase.sync,
       Event.printLine sleepMsg, Event.sleepDone] ++
      (runBatch Phase.async env.asyncOutcome (fun _ => 0) as
        (0 + (ss.map env.syncCallDur).sum + 20000000)).1 := by
  unfold mainTrace
  rw [runBatch_no_abort _ _ _ _ _ hs]
  simp [runBatch_abort_of_ok _ _ _ _ _ ha]

/-! ## The claims -/

/-- C1, counterexample: the claim says that a call completing with an
error other than the expected semantic-validation failure must abort the
run.  In the run below, synchronous call 0 completes with a timeout
error — a category different from the expected one — yet the run does
not abort and still prints the final (asynchronous) timing line, because
`expect_err` only panics on `Ok` and never inspects the error value. -/
theorem c1_unexpected_error_counterexample :
    envTimeoutAtZero.syncOutcome 0 = SimOutcome.err ErrKind.timeout ∧
    ErrKind.timeout ≠ ErrKind.sanitizeFailure ∧
    aborts (mainTrace envTimeoutAtZero (List.range TX_SIMS) (List.range TX_SIMS)) = false ∧
    Event.printLine (asyncLine envTimeoutAtZero.asyncBatchDur) ∈
      mainTrace envTimeoutAtZero (List.range TX_SIMS) (List.range TX_SIMS) := by
  refine ⟨rfl, by decide, by decide, by decide⟩

/-- C1, amended: the run aborts only when a call returns success; when
every call of both batches completes with an error — of any category,
expected or not — the run never aborts and prints the full report. -/
theorem c1_amended_errors_never_abort (env : Env) (ss as : List Nat)
    (hs : ∀ i ∈ ss, env.syncOutcome i ≠ SimOutcome.ok)
    (ha : ∀ i ∈ as, env.asyncOutcome i ≠ SimOutcome.ok) :
    aborts (mainTrace env ss as) = false ∧
    Event.printLine resultsHeader ∈ mainTrace env ss as := by
  rw [mainTrace_eq_of_no_abort env ss as hs ha]
  constructor
  · simp [aborts, aborts_batchEvents, List.any_append]
    constructor
    · have := aborts_batchEvents Phase.sync ss
      simpa [aborts] using this
    · have := aborts_batchEvents Phase.async as
      simpa [aborts] using this
  · simp

/-- Witness for the amended C1: the run with a timeout at synchronous
call 0 completes without aborting and prints the report header. -/
theorem c1_amended_witness :
    aborts (mainTrace envTimeoutAtZero (List.range TX_SIMS) (List.range TX_SIMS)) = false ∧
    Event.printLine resultsHeader ∈
      mainTrace envTimeoutAtZero (List.range TX_SIMS) (List.range TX_SIMS) :=
  c1_amended_errors_never_abort envTimeoutAtZero (List.range TX_SIMS) (List.range TX_SIMS)
    (by decide) (by decide)

/-- C2: if any simulation call of either strategy runner returns
success, the process aborts, and nothing of the report is printed: at
most the pre-sleep notice ever reaches stdout, and in particular the
second (asynchronous) timing line is never printed. -/
theorem c2_success_aborts (env : Env) (ss as : List Nat)
    (h : (∃ i ∈ ss, env.syncOutcome i = SimOutcome.ok) ∨
         (∃ i ∈ as, env.asyncOutcome i = SimOutcome.ok)) :
    aborts (mainTrace env ss as) = true ∧
    (printedLines (mainTrace env ss as) = [] ∨
      printedLines (mainTrace env ss as) = [sleepMsg]) ∧
    ∀ n, Event.printLine (asyncLine n) ∉ mainTrace env ss as := by
  by_cases hsy : ∃ i ∈ ss, env.syncOutcome i = SimOutcome.ok
  · rw [mainTrace_eq_of_sync_abort env ss as hsy]
    have hab := runBatch_abort_of_ok Phase.sync env.syncOutcome env.syncCallDur ss 0 hsy
    refine ⟨aborts_of_mem_panicked (runBatch_panicked_of_abort _ _ _ _ _ hab),
      Or.inl (printedLines_runBatch _ _ _ _ _), ?_⟩
    intro n hmem
    have : asyncLine n ∈ printedLines (runBatch Phase.sync env.syncOutcome env.syncCallDur ss 0).1 := by
      simp only [printedLines, List.mem_filterMap]
      exact ⟨Event.printLine (asyncLine n), hmem, rfl⟩
    rw [printedLines_runBatch] at this
    simp at this
  · have hs' : ∀ i ∈ ss, env.syncOutcome i ≠ SimOutcome.ok := by
      push_neg at hsy
      exact hsy
    have hasync : ∃ i ∈ as, env.asyncOutcome i = SimOutcome.ok := h.resolve_left hsy
    rw [mainTrace_eq_of_async_abort env ss as hs' hasync]
    have hab := runBatch_abort_of_ok Phase.async env.asyncOutcome (fun _ => 0) as
      (0 + (ss.map env.syncCallDur).sum + 20000000) hasync
    have hpan := runBatch_panicked_of_abort _ _ _ _ _ hab
    refine ⟨aborts_of_mem_panicked (List.mem_append_right _ hpan), Or.inr ?_, ?_⟩
    · rw [printedLines_append, printedLines_append, printedLines_batchEvents,
        printedLines_runBatch]
      simp [printedLines]
    · intro n hmem
      rcases List.mem_append.mp hmem with hmem1 | hmem2
      · rcases List.mem_append.mp hmem1 with hmem3 | hmem4
        · obtain ⟨i, _, hi⟩ := mem_batchEvents.mp hmem3
          rcases hi with h | h <;> exact Event.noConfusion h
        · simp only [List.mem_cons, List.not_mem_nil, or_false] at hmem4
          rcases hmem4 with h1 | h2 | h3 | h4
          · exact Event.noConfusion h1
          · exact Event.noConfusion h2
          · exact asyncLine_ne_sleepMsg n (Event.printLine.inj h3)
          · exact Event.noConfusion h4
      · have : asyncLine n ∈ printedLines (runBatch Phase.async env.asyncOutcome (fun _ => 0) as
            (0 + (ss.map env.syncCallDur).sum + 20000000)).1 := by
          simp only [printedLines, List.mem_filterMap]
          exact ⟨Event.printLine (asyncLine n), hmem2, rfl⟩
        rw [printedLines_runBatch] at this
        simp at this

/-- Witness for C2: synchronous call 0 succeeding aborts the run before
any report output. -/
theorem c2_success_aborts_witness :
    aborts (mainTrace envSuccessAtZero (List.range TX_SIMS) (List.range TX_SIMS)) = true ∧
    (printedLines (mainTrace envSuccessAtZero (List.range TX_SIMS) (List.range TX_SIMS)) = [] ∨
      printedLines (mainTrace envSuccessAtZero (List.range TX_SIMS) (List.range TX_SIMS)) =
        [sleepMsg]) ∧
    ∀ n, Event.printLine (asyncLine n) ∉
      mainTrace envSuccessAtZero (List.range TX_SIMS) (List.range TX_SIMS) :=
  c2_success_aborts envSuccessAtZero (List.range TX_SIMS) (List.range TX_SIMS)
    (Or.inl (by decide))

/-- C5: when every call returns the expected sanitize-failure error, the
synchronous runner advances its progress bar exactly `TX_SIMS` times —
for every worker-pool size between 1 and `TX_SIMS`, and indeed for every
dispatch order `ss` the pool can produce — and the asynchronous runner
likewise advances its bar exactly `TX_SIMS` times for every completion
order `as`. -/
theorem c5_progress_callback_count (poolSize : Nat) (hp1 : 1 ≤ poolSize)
    (hp2 : poolSize ≤ TX_SIMS) (env : Env) (ss as : List Nat)
    (hss : ss.Perm (List.range TX_SIMS)) (has : as.Perm (List.range TX_SIMS))
    (hs : ∀ i ∈ ss, env.syncOutcome i = SimOutcome.err ErrKind.sanitizeFailure)
    (ha : ∀ i ∈ as, env.asyncOutcome i = SimOutcome.err ErrKind.sanitizeFailure) :
    (mainTrace env ss as).countP (isInc Phase.sync) = TX_SIMS ∧
    (mainTrace env ss as).countP (isInc Phase.async) = TX_SIMS := by
  have hs' : ∀ i ∈ ss, env.syncOutcome i ≠ SimOutcome.ok := by
    intro i hi
    rw [hs i hi]
    simp
  have ha' : ∀ i ∈ as, env.asyncOutcome i ≠ SimOutcome.ok := by
    intro i hi
    rw [ha i hi]
    simp
  rw [mainTrace_eq_of_no_abort env ss as hs' ha']
  have hlens : ss.length = TX_SIMS := by
    rw [hss.length_eq, List.length_range]
  have hlena : as.length = TX_SIMS := by
    rw [has.length_eq, List.length_range]
  constructor
  · simp [List.countP_append, countP_isInc_batchEvents_self,
      countP_isInc_batchEvents_ne (show Phase.sync ≠ Phase.async by decide),
      List.countP_cons, isInc, hlens]
  · simp [List.countP_append, countP_isInc_batchEvents_self,
      countP_isInc_batchEvents_ne (show Phase.async ≠ Phase.sync by decide),
      List.countP_cons, isInc, hlena]

/-- Witness for C5 at pool size 1 and in-order dispatch. -/
theorem c5_progress_count_witness :
    (mainTrace envAllExpected (List.range TX_SIMS) (List.range TX_SIMS)).countP
      (isInc Phase.sync) = TX_SIMS ∧
    (mainTrace envAllExpected (List.range TX_SIMS) (List.range TX_SIMS)).countP
      (isInc Phase.async) = TX_SIMS :=
  c5_progress_callback_count 1 (by decide) (by decide) envAllExpected
    (List.range TX_SIMS) (List.range TX_SIMS) (List.Perm.refl _) (List.Perm.refl _)
    (fun _ _ => rfl) (fun _ _ => rfl)

/-- C7: with every call returning an error as expected, the run's trace
is strictly linear: a block `A` of synchronous-batch events only, then
the synchronous elapsed read, progress-bar finish, sleep notice and the
20 s sleep, then a block `B` of asynchronous-batch events only, then the
asynchronous elapsed read, finish and the report; the two batches never
interleave, and each call index is dispatched exactly once per batch (no
retry, no branching on results). -/
theorem c7_strictly_linear (env : Env) (ss as : List Nat)
    (hss : ss.Perm (List.range TX_SIMS)) (has : as.Perm (List.range TX_SIMS))
    (hs : ∀ i ∈ ss, env.syncOutcome i ≠ SimOutcome.ok)
    (ha : ∀ i ∈ as, env.asyncOutcome i ≠ SimOutcome.ok) :
    ∃ A B,
      mainTrace env ss as =
        A ++ [Event.timerRead Phase.sync ((ss.map env.syncCallDur).sum),
              Event.pbFinish Phase.sync, Event.printLine sleepMsg, Event.sleepDone] ++
        B ++ [Event.timerRead Phase.async env.asyncBatchDur, Event.pbFinish Phase.async,
              Event.printLine "", Event.printLine resultsHeader,
              Event.printLine (syncLine ((ss.map env.syncCallDur).sum)),
              Event.printLine (asyncLine env.asyncBatchDur)] ∧
      (∀ e ∈ A, ∃ i ∈ ss, e = Event.callDone Phase.sync i ∨ e = Event.inc Phase.sync i) ∧
      (∀ e ∈ B, ∃ i ∈ as, e = Event.callDone Phase.async i ∨ e = Event.inc Phase.async i) ∧
      ∀ i < TX_SIMS, A.count (Event.callDone Phase.sync i) = 1 ∧
        B.count (Event.callDone Phase.async i) = 1 := by
  refine ⟨batchEvents Phase.sync ss, batchEvents Phase.async as, ?_, ?_, ?_, ?_⟩
  · exact mainTrace_eq_of_no_abort env ss as hs ha
  · intro e he
    exact mem_batchEvents.mp he
  · intro e he
    exact mem_batchEvents.mp he
  · intro i hi
    have hnds : ss.Nodup := hss.nodup_iff.mpr (List.nodup_range TX_SIMS)
    have hnda : as.Nodup := has.nodup_iff.mpr (List.nodup_range TX_SIMS)
    have hmems : i ∈ ss := hss.mem_iff.mpr (List.mem_range.mpr hi)
    have hmema : i ∈ as := has.mem_iff.mpr (List.mem_range.mpr hi)
    rw [count_callDone_batchEvents, count_callDone_batchEvents]
    exact ⟨List.count_eq_one_of_mem hnds hmems, List.count_eq_one_of_mem hnda hmema⟩

/-- Witness for C7 at the all-expected run with in-order dispatch. -/
theorem c7_strictly_linear_witness :
    ∃ A B,
      mainTrace envAllExpected (List.range TX_SIMS) (List.range TX_SIMS) =
        A ++ [Event.timerRead Phase.sync
                (((List.range TX_SIMS).map envAllExpected.syncCallDur).sum),
              Event.pbFinish Phase.sync, Event.printLine sleepMsg, Event.sleepDone] ++
        B ++ [Event.timerRead Phase.async envAllExpected.asyncBatchDur,
              Event.pbFinish Phase.async,
              Event.printLine "", Event.printLine resultsHeader,
              Event.printLine (syncLine (((List.range TX_SIMS).map
                envAllExpected.syncCallDur).sum)),
              Event.printLine (asyncLine envAllExpected.asyncBatchDur)] ∧
      (∀ e ∈ A, ∃ i ∈ List.range TX_SIMS,
        e = Event.callDone Phase.sync i ∨ e = Event.inc Phase.sync i) ∧
      (∀ e ∈ B, ∃ i ∈ List.range TX_SIMS,
        e = Event.callDone Phase.async i ∨ e = Event.inc Phase.async i) ∧
      ∀ i < TX_SIMS, A.count (Event.callDone Phase.sync i) = 1 ∧
        B.count (Event.callDone Phase.async i) = 1 :=
  c7_strictly_linear envAllExpected (List.range TX_SIMS) (List.range TX_SIMS)
    (List.Perm.refl _) (List.Perm.refl _) (by decide) (by decide)

/-- C9: neither measured elapsed value contains the inter-batch sleep or
the progress-bar finalization.  The synchronous elapsed read follows the
last synchronous call immediately and precedes the synchronous
progress-bar finish and the sleep, and its value is exactly the sum of
the synchronous call durations; the asynchronous elapsed read follows
the scoped join immediately and precedes the asynchronous progress-bar
finish, and its value is exactly the wall time of the scoped batch alone
— neither formula contains the 20 s sleep term or a finalization term. -/
theorem c9_elapsed_capture (env : Env) (ss as : List Nat)
    (hs : ∀ i ∈ ss, env.syncOutcome i ≠ SimOutcome.ok)
    (ha : ∀ i ∈ as, env.asyncOutcome i ≠ SimOutcome.ok) :
    mainTrace env ss as =
      batchEvents Phase.sync ss ++
      [Event.timerRead Phase.sync ((ss.map env.syncCallDur).sum), Event.pbFinish Phase.sync,
       Event.printLine sleepMsg, Event.sleepDone] ++
      batchEvents Phase.async as ++
      [Event.timerRead Phase.async env.asyncBatchDur, Event.pbFinish Phase.async,
       Event.printLine "", Event.printLine resultsHeader,
       Event.printLine (syncLine ((ss.map env.syncCallDur).sum)),
       Event.printLine (asyncLine env.asyncBatchDur)] :=
  mainTrace_eq_of_no_abort env ss as hs ha

/-- Witness for C9 at the all-expected run with in-order dispatch. -/
theorem c9_elapsed_capture_witness :
    mainTrace envAllExpected (List.range TX_SIMS) (List.range TX_SIMS) =
      batchEvents Phase.sync (List.range TX_SIMS) ++
      [Event.timerRead Phase.sync
        (((List.range TX_SIMS).map envAllExpected.syncCallDur).sum),
       Event.pbFinish Phase.sync, Event.printLine sleepMsg, Event.sleepDone] ++
      batchEvents Phase.async (List.range TX_SIMS) ++
      [Event.timerRead Phase.async envAllExpected.asyncBatchDur, Event.pbFinish Phase.async,
       Event.printLine "", Event.printLine resultsHeader,
       Event.printLine (syncLine (((List.range TX_SIMS).map
         envAllExpected.syncCallDur).sum)),
       Event.printLine (asyncLine envAllExpected.asyncBatchDur)] :=
  c9_elapsed_capture envAllExpected (List.range TX_SIMS) (List.range TX_SIMS)
    (by decide) (by decide)

/-- C10: the printed report is a deterministic function of the two
measured elapsed values.  Two completing runs that measure the same pair
of elapsed values print exactly the same lines, whatever their outcomes,
dispatch orders or call durations were; those lines are the pre-sleep
notice followed by the fixed blank line, the fixed header, and the two
timing lines.  The number format is the file-fixed English locale
(`toFormattedStringEn`, embedding the hard-coded `Locale::en`); the
program reads no system locale and no environment. -/
theorem c10_report_deterministic (env1 env2 : Env) (ss1 as1 ss2 as2 : List Nat)
    (h1s : ∀ i ∈ ss1, env1.syncOutcome i ≠ SimOutcome.ok)
    (h1a : ∀ i ∈ as1, env1.asyncOutcome i ≠ SimOutcome.ok)
    (h2s : ∀ i ∈ ss2, env2.syncOutcome i ≠ SimOutcome.ok)
    (h2a : ∀ i ∈ as2, env2.asyncOutcome i ≠ SimOutcome.ok)
    (hsync : (ss1.map env1.syncCallDur).sum = (ss2.map env2.syncCallDur).sum)
    (hasync : env1.asyncBatchDur = env2.asyncBatchDur) :
    printedLines (mainTrace env1 ss1 as1) = printedLines (mainTrace env2 ss2 as2) ∧
    printedLines (mainTrace env1 ss1 as1) =
      [sleepMsg, "", resultsHeader, syncLine ((ss1.map env1.syncCallDur).sum),
       asyncLine env1.asyncBatchDur] := by
  have he1 := mainTrace_eq_of_no_abort env1 ss1 as1 h1s h1a
  have he2 := mainTrace_eq_of_no_abort env2 ss2 as2 h2s h2a
  rw [he1, he2]
  rw [printedLines_append, printedLines_append, printedLines_append,
    printedLines_append, printedLines_append, printedLines_append,
    printedLines_batchEvents, printedLines_batchEvents,
    printedLines_batchEvents, printedLines_batchEvents]
  simp [printedLines, hsync, hasync]

/-- Witness for C10: a run with only expected errors and a run with a
timeout at synchronous call 0, both measuring (0, 0), print the same
report. -/
theorem c10_report_deterministic_witness :
    printedLines (mainTrace envAllExpected (List.range TX_SIMS) (List.range TX_SIMS)) =
      printedLines (mainTrace envTimeoutAtZero (List.range TX_SIMS) (List.range TX_SIMS)) ∧
    printedLines (mainTrace envAllExpected (List.range TX_SIMS) (List.range TX_SIMS)) =
      [sleepMsg, "", resultsHeader,
       syncLine (((List.range TX_SIMS).map envAllExpected.syncCallDur).sum),
       asyncLine envAllExpected.asyncBatchDur] :=
  c10_report_deterministic envAllExpected envTimeoutAtZero
    (List.range TX_SIMS) (List.range TX_SIMS) (List.range TX_SIMS) (List.range TX_SIMS)
    (by decide) (by decide) (by decide) (by decide) (by decide) (by decide)

/-- C8: for an elapsed duration of 1234567 microseconds, the reporter
prints the value with English thousands-grouping separators, yielding
"1,234,567"; the run measuring 1234567 microseconds in both batches
prints both grouped timing lines. -/
theorem c8_thousands_grouping :
    toFormattedStringEn 1234567 = "1,234,567" ∧
    syncLine 1234567 = "    synchronous sims: 1,234,567" ∧
    Event.printLine (syncLine 1234567) ∈
      mainTrace envElapsed1234567 (List.range TX_SIMS) (List.range TX_SIMS) ∧
    Event.printLine (asyncLine 1234567) ∈
      mainTrace envElapsed1234567 (List.range TX_SIMS) (List.range TX_SIMS) := by
  refine ⟨by decide, by decide, by decide, by decide⟩

/-- C6: the scoped asynchronous block never returns with work
outstanding: in every reachable state of the scoped block in which the
block has returned to the caller, all `N` spawned units have completed —
a join/barrier, with no lost or still-running unit. -/
theorem c6_scope_joins_all (N : Nat) (s : ScopeState)
    (hreach : scopeReachable N s) (hret : s.returned = true) :
    s.spawned = N ∧ ∀ i < N, i ∈ s.done := by
  induction hreach with
  | refl => exact absurd hret (by simp [scopeInit])
  | tail hsteps hstep ih =>
    cases hstep with
    | spawn h hr => exact absurd hret (by simpa using hr)
    | complete i hi hmem hr => exact absurd hret (by simpa using hr)
    | exit hsp hall hr => exact ⟨hsp, hall⟩

/-- Witness for C6: an explicit two-task run of the scoped block —
spawn, spawn, complete 0, complete 1, exit — reaches a returned state,
and the theorem yields that both tasks completed. -/
theorem c6_scope_joins_all_witness :
    ScopeState.spawned ⟨2, [1, 0], true⟩ = 2 ∧
    ∀ i < 2, i ∈ ScopeState.done ⟨2, [1, 0], true⟩ :=
  c6_scope_joins_all 2 ⟨2, [1, 0], true⟩
    (Relation.ReflTransGen.tail
      (Relation.ReflTransGen.tail
        (Relation.ReflTransGen.tail
          (Relation.ReflTransGen.tail
            (Relation.ReflTransGen.tail Relation.ReflTransGen.refl
              (ScopeStep.spawn scopeInit (by decide) rfl))
            (ScopeStep.spawn ⟨1, [], false⟩ (by decide) rfl))
          (ScopeStep.complete ⟨2, [], false⟩ 0 (by decide) (by decide) rfl))
        (ScopeStep.complete ⟨2, [0], false⟩ 1 (by decide) (by decide) rfl))
      (ScopeStep.exit ⟨2, [1, 0], false⟩ rfl (by decide) rfl))
    rfl

end TxSimTest
